import Mathlib

/-!
Verification of the sprinkler-controller firmware core (`src/unnamed/part_000`,
current firmware document, together with the constants of `include/config.h`,
second document).  The C++ code is shallowly embedded: the MQTT message
callback, the safety-timeout scan of `loop()`, the reconnect routine and the
configuration validation of `loadConfig()` become executable Lean functions
over an explicit controller state.  Machine `unsigned long` arithmetic
(`millis() - t`) is made explicit as subtraction modulo 2^32.
-/

namespace Sprinkler

/-! ### Constants from `config.h` (second document) -/

def NUM_ZONES : Nat := 7

def MAX_ZONE_RUNTIME : Nat := 7200000

def RECONNECT_INTERVAL : Nat := 5000

def STATUS_INTERVAL : Nat := 60000

def MQTT_MESSAGE_BUFFER_SIZE : Nat := 8

def MQTT_PAYLOAD_BUFFER_SIZE : Nat := 512

def MQTT_TOPIC_PREFIX : String := "home/sprinkler/"

def MQTT_ZONE_COMMAND : String := "home/sprinkler/zone/+/command"

def MQTT_STATUS : String := "home/sprinkler/status"

/-- GPIO pins driven per zone (`ZONE_PINS` in `config.h`).  The pins are
pairwise distinct, so the firmware's pin-indexed GPIO state is faithfully
modelled below by a zone-indexed boolean state. -/
def ZONE_PINS : List Nat := [5, 4, 14, 12, 13, 15, 16]

def ZONE_NAMES : List String :=
  ["Front Lawn", "Back Lawn", "Garden", "Side Yard", "Flower Bed",
   "Drip System", "Extra Zone"]

theorem ZONE_PINS_nodup : ZONE_PINS.Nodup := by decide

/-! ### 32-bit wrap-safe elapsed time

`millis()` and the stored timestamps are C `unsigned long` (32 bits on the
ESP8266); `now - t` is computed modulo 2^32. -/

def UINT32_MOD : Nat := 2 ^ 32

def elapsed32 (now t : Nat) : Nat := (now + UINT32_MOD - t) % UINT32_MOD

theorem elapsed32_eq_sub {now t : Nat} (h1 : t ≤ now) (h2 : now < t + UINT32_MOD) :
    elapsed32 now t = now - t := by
  unfold elapsed32 UINT32_MOD at *
  omega

/-! ### `atoi` and `strstr` (newlib / C semantics)

`callback` extracts the zone number with
`atoi(zonePrefixPos + strlen("/zone/"))`.  C `atoi` skips leading ASCII
whitespace, accepts one optional `+`/`-` sign and then reads the run of
decimal digits, stopping at the first non-digit; no digits yields 0.
Overflow (not reachable with in-range zone numbers) is not modelled. -/

def isAsciiSpace (c : Char) : Bool :=
  c = ' ' || c = '\t' || c = '\n' || c = '\x0b' || c = '\x0c' || c = '\r'

def digitRunVal (l : List Char) : Nat :=
  (l.takeWhile (fun c => c.isDigit)).foldl (fun a c => a * 10 + (c.toNat - 48)) 0

def atoiList (l : List Char) : Int :=
  if (l.dropWhile isAsciiSpace).head? = some '-' then
    -(digitRunVal (l.dropWhile isAsciiSpace).tail : Int)
  else if (l.dropWhile isAsciiSpace).head? = some '+' then
    (digitRunVal (l.dropWhile isAsciiSpace).tail : Int)
  else (digitRunVal (l.dropWhile isAsciiSpace) : Int)

/-- Index of the first occurrence of `needle` in `hay` starting the count at
`i` (the model of C `strstr`; pointer order corresponds to index order). -/
def findSub : List Char → List Char → Nat → Option Nat
  | [], needle, i => if needle.isPrefixOf [] then some i else none
  | c :: t, needle, i =>
      if needle.isPrefixOf (c :: t) then some i else findSub t needle (i + 1)

def zoneMarker : List Char := "/zone/".toList

def commandMarker : List Char := "/command".toList

/-- Zone-number extraction of `callback` (part_000 lines 74–84): locate the
first `"/zone/"` and the first `"/command"`; require the latter strictly
after the former; `atoi` the characters following the `"/zone/"` marker.
`none` is the no-op rejection (markers missing or out of order). -/
def parseZone (topic : List Char) : Option Int :=
  match findSub topic zoneMarker 0, findSub topic commandMarker 0 with
  | some zp, some cp =>
      if zp < cp then some (atoiList (topic.drop (zp + zoneMarker.length))) else none
  | _, _ => none

/-! ### Payload buffering (part_000 lines 60–67, 91–95)

The payload is copied into `char message[MQTT_MESSAGE_BUFFER_SIZE]`; a
payload of `length ≥ 8` is truncated to 7 bytes, then NUL-terminated.
String comparisons see the C string up to the first NUL byte.  The
upper-cased copy `upperMessage` holds `toupper` of that C string; when the
truncated payload contains an interior NUL byte the bytes of `upperMessage`
between the NUL and `length` are uninitialised in the source — the model
resolves those bytes as NUL (the comparisons below consult them only when
the C string is a proper prefix of a keyword). -/

def copyLen (n : Nat) : Nat :=
  if MQTT_MESSAGE_BUFFER_SIZE ≤ n then MQTT_MESSAGE_BUFFER_SIZE - 1 else n

def truncPayload (p : List Nat) : List Nat := p.take (copyLen p.length)

/-- The bytes written into the `message` buffer: the truncated payload
followed by the NUL terminator. -/
def messageBytes (p : List Nat) : List Nat := truncPayload p ++ [0]

/-- The C string seen by `strcmp`: the truncated payload up to its first
NUL byte. -/
def msgCString (p : List Nat) : List Nat := (truncPayload p).takeWhile (fun b => b ≠ 0)

def upperByte (b : Nat) : Nat := if 97 ≤ b ∧ b ≤ 122 then b - 32 else b

def upperCString (p : List Nat) : List Nat := (msgCString p).map upperByte

def ON_BYTES : List Nat := [79, 78]

def OFF_BYTES : List Nat := [79, 70, 70]

/-- Payload classification of `callback` (lines 97–107):
`strcmp(upperMessage,"ON") == 0 || strcmp(message,"1") == 0` commands ON,
else `strcmp(upperMessage,"OFF") == 0 || strcmp(message,"0") == 0` commands
OFF, anything else is ignored. -/
def decideCmd (p : List Nat) : Option Bool :=
  if upperCString p = ON_BYTES ∨ msgCString p = [49] then some true
  else if upperCString p = OFF_BYTES ∨ msgCString p = [48] then some false
  else none

/-! ### Controller state -/

/-- The mutable state of the firmware relevant to the control loop:
per-zone GPIO output (`digitalWrite`/`digitalRead` on `ZONE_PINS`, modelled
zone-indexed thanks to `ZONE_PINS_nodup`), the safety timers
`zone_on_time[]`, and the two loop timers. -/
structure Ctrl where
  pins : Fin NUM_ZONES → Bool
  onTime : Fin NUM_ZONES → Nat
  lastReconnectAttempt : Nat
  lastStatusReport : Nat

/-- Boot state established by `setup()`: all outputs LOW, all timers 0. -/
def initCtrl : Ctrl :=
  { pins := fun _ => false, onTime := fun _ => 0,
    lastReconnectAttempt := 0, lastStatusReport := 0 }

/-- Outward-visible actions on the MQTT transport. -/
inductive Event where
  | connectAttempt (server : String) (port : Int)
  | subscribe (topic : String)
  | publish (topic : String) (payload : String) (retained : Bool)
  deriving DecidableEq

def zoneStateTopic (n : Nat) : String :=
  MQTT_TOPIC_PREFIX ++ "zone/" ++ toString n ++ "/state"

def zoneCommandTopic (n : Nat) : String :=
  MQTT_TOPIC_PREFIX ++ "zone/" ++ toString n ++ "/command"

def haConfigTopic (n : Nat) : String :=
  "homeassistant/switch/sprinkler_zone" ++ toString n ++ "/config"

/-- The retained `OFF` state publish emitted by the safety scan for zone
`z` (0-based index, topic uses the 1-based zone number). -/
def zOffEvent (z : Fin NUM_ZONES) : Event :=
  Event.publish (zoneStateTopic (z.val + 1)) "OFF" true

/-- `callback` (part_000 lines 59–110): parse the zone number from the
topic, validate `0 < zone ≤ NUM_ZONES`, classify the payload and drive the
GPIO plus one retained state publish; every rejection is a silent no-op. -/
def callbackStep (s : Ctrl) (topic : List Char) (payload : List Nat) :
    Ctrl × List Event :=
  match parseZone topic with
  | none => (s, [])
  | some zone =>
    if h : 0 < zone ∧ zone ≤ (NUM_ZONES : Int) then
      let zi : Fin NUM_ZONES := ⟨zone.toNat - 1, by unfold NUM_ZONES at *; omega⟩
      match decideCmd payload with
      | some true =>
          ({ s with pins := Function.update s.pins zi true },
           [Event.publish (zoneStateTopic zone.toNat) "ON" true])
      | some false =>
          ({ s with pins := Function.update s.pins zi false },
           [Event.publish (zoneStateTopic zone.toNat) "OFF" true])
      | none => (s, [])
    else (s, [])

/-! ### Safety scan (part_000 lines 584–602)

Per zone: if the output reads HIGH and the timer is unarmed (0), arm it at
`millis()`; if armed and `millis() - zone_on_time[i] > MAX_ZONE_RUNTIME`,
force the output LOW, publish retained `OFF`, clear the timer; if the
output reads LOW, clear the timer.  Zones are handled independently, in
ascending index order. -/

/-- One zone's scan step: `(new pin, new timer, forced-off?)`. -/
def scanZone (now : Nat) (pin : Bool) (t : Nat) : Bool × Nat × Bool :=
  if pin then
    if t = 0 then (true, now, false)
    else if MAX_ZONE_RUNTIME < elapsed32 now t then (false, 0, true)
    else (true, t, false)
  else (false, 0, false)

def safetyScanCtrl (now : Nat) (s : Ctrl) : Ctrl :=
  { s with
    pins := fun i => (scanZone now (s.pins i) (s.onTime i)).1,
    onTime := fun i => (scanZone now (s.pins i) (s.onTime i)).2.1 }

def safetyScanEvents (now : Nat) (s : Ctrl) : List Event :=
  (List.finRange NUM_ZONES).foldr
    (fun i acc =>
      if (scanZone now (s.pins i) (s.onTime i)).2.2 then zOffEvent i :: acc else acc)
    []

/-! ### Status publishing (part_000 lines 604–609, 503–533)

`publishStatus` serialises health data (uptime, heap, RSSI, chip id, zone
states) that is external input to the core; the serialised report is passed
in as the opaque string `env`.  The publish is retained and guarded by the
512-byte buffer check. -/

def statusStep (env : String) (now : Nat) (s : Ctrl) : Ctrl × List Event :=
  if STATUS_INTERVAL < elapsed32 now s.lastStatusReport then
    ({ s with lastStatusReport := now },
     if env.length < MQTT_PAYLOAD_BUFFER_SIZE then
       [Event.publish MQTT_STATUS env true]
     else [])
  else (s, [])

/-! ### Reconnect (part_000 lines 388–420, 434–490) -/

/-- Loaded MQTT broker configuration (the `mqtt_server` / `mqtt_port` /
`mqtt_user` / `mqtt_password` globals); the port keeps its textual form,
as in the firmware. -/
structure BrokerConfig where
  server : String
  port : List Char
  user : String
  password : String

/-- Port validation of `reconnectMqtt` (lines 390–394): empty string falls
back to 1883 before `atoi`; an out-of-range result falls back to 1883. -/
def portOf (cfg : BrokerConfig) : Int :=
  let p : Int := if cfg.port ≠ [] then atoiList cfg.port else 1883
  if p ≤ 0 ∨ 65535 < p then 1883 else p

def zoneName (i : Fin NUM_ZONES) : String := ZONE_NAMES.getD i.val ""

/-- The exact Home Assistant discovery payload serialised by
`publishHomeAssistantConfig` for zone `i` (ArduinoJson minified output,
fields in insertion order); `deviceId` is the `%08X` chip id. -/
def haPayload (i : Fin NUM_ZONES) (deviceId : String) : String :=
  "\x7b\"name\":\"" ++ zoneName i
    ++ "\",\"unique_id\":\"sprinkler_zone" ++ toString (i.val + 1)
    ++ "\",\"command_topic\":\"" ++ zoneCommandTopic (i.val + 1)
    ++ "\",\"state_topic\":\"" ++ zoneStateTopic (i.val + 1)
    ++ "\",\"availability_topic\":\"" ++ MQTT_STATUS
    ++ "\",\"payload_on\":\"ON\",\"payload_off\":\"OFF\",\"state_on\":\"ON\",\"state_off\":\"OFF\",\"optimistic\":false,\"qos\":0,\"retain\":true,\"device\":\x7b\"name\":\"Sprinkler Controller\",\"identifiers\":\""
    ++ deviceId
    ++ "\",\"model\":\"ESP8266 NodeMCU\",\"manufacturer\":\"DIY\",\"sw_version\":\"2.0.0\"\x7d\x7d"

/-- Per-zone retained state publishes of `reconnectMqtt` (lines 410–414). -/
def stateEvents (pins : Fin NUM_ZONES → Bool) : List Event :=
  (List.finRange NUM_ZONES).map
    (fun i => Event.publish (zoneStateTopic (i.val + 1))
      (if pins i then "ON" else "OFF") true)

/-- Discovery publishes of `publishHomeAssistantConfig` (lines 449–489):
one retained publish per zone, guarded by `len < sizeof(payload)`. -/
def discoveryEvents (deviceId : String) : List Event :=
  (List.finRange NUM_ZONES).foldr
    (fun i acc =>
      if (haPayload i deviceId).length < MQTT_PAYLOAD_BUFFER_SIZE then
        Event.publish (haConfigTopic (i.val + 1)) (haPayload i deviceId) true :: acc
      else acc)
    []

/-- Transport actions of one `reconnectMqtt` call: the connect attempt is
made unconditionally (with the validated port and the last-will `offline`
registration); on success, subscribe, retained `online`, the N retained
zone states, then the N discovery records. -/
def reconnectEvents (cfg : BrokerConfig) (deviceId : String)
    (pins : Fin NUM_ZONES → Bool) (ok : Bool) : List Event :=
  Event.connectAttempt cfg.server (portOf cfg) ::
    (if ok then
      Event.subscribe MQTT_ZONE_COMMAND ::
        Event.publish MQTT_STATUS "online" true ::
        (stateEvents pins ++ discoveryEvents deviceId)
    else [])

/-- Validation of the loaded configuration (`loadConfig`, lines 160–175):
`config_valid` requires a non-empty server, non-empty port text and
`atoi(port)` in `[1, 65535]`; an invalid configuration clears
`mqtt_server`. -/
def configValid (server : String) (port : List Char) : Bool :=
  decide (0 < server.length) && decide (port ≠ []) &&
    decide (0 < atoiList port) && decide (atoiList port ≤ 65535)

def loadConfigServer (server : String) (port : List Char) : String :=
  if configValid server port then server else ""

/-! ### One tick of `loop()` (part_000 lines 566–611)

Connected tick: `mqtt.loop()` dispatches the inbound messages through
`callback`, then the safety scan runs, then the periodic status report.
Disconnected tick (regardless of what any zone is doing): only the
rate-limited reconnect attempt runs, `ok` telling whether it succeeded. -/

def processMsgs (s : Ctrl) (msgs : List (List Char × List Nat)) :
    Ctrl × List Event :=
  msgs.foldl
    (fun acc m =>
      let r := callbackStep acc.1 m.1 m.2
      (r.1, acc.2 ++ r.2))
    (s, [])

def tick (cfg : BrokerConfig) (deviceId : String) (env : String)
    (conn ok : Bool) (msgs : List (List Char × List Nat)) (now : Nat)
    (s : Ctrl) : Ctrl × List Event :=
  if conn then
    let r1 := processMsgs s msgs
    let s2 := safetyScanCtrl now r1.1
    let evs2 := safetyScanEvents now r1.1
    let r3 := statusStep env now s2
    (r3.1, r1.2 ++ (evs2 ++ r3.2))
  else
    if RECONNECT_INTERVAL < elapsed32 now s.lastReconnectAttempt then
      ({ s with lastReconnectAttempt := if ok then 0 else now },
       reconnectEvents cfg deviceId s.pins ok)
    else (s, [])

/-- Run a sequence of connected ticks (each a time plus the inbound
messages delivered by `mqtt.loop()` during it), collecting each tick's
events separately. -/
def runConn (cfg : BrokerConfig) (deviceId : String) (env : String) :
    List (Nat × List (List Char × List Nat)) → Ctrl → Ctrl × List (List Event)
  | [], s => (s, [])
  | (now, ms) :: rest, s =>
      let r := tick cfg deviceId env true true ms now s
      let r2 := runConn cfg deviceId env rest r.1
      (r2.1, r.2 :: r2.2)

/-! ### Helper lemmas about the scan and the tick -/

theorem scanZone_off (now t : Nat) : scanZone now false t = (false, 0, false) := rfl

theorem scanZone_arm (now : Nat) : scanZone now true 0 = (true, now, false) := rfl

theorem scanZone_keep {now t : Nat} (h0 : 0 < t) (h1 : t ≤ now)
    (h2 : now < t + UINT32_MOD) (h3 : now - t ≤ MAX_ZONE_RUNTIME) :
    scanZone now true t = (true, t, false) := by
  have ht : ¬t = 0 := by omega
  have he : elapsed32 now t = now - t := elapsed32_eq_sub h1 h2
  have hn : ¬MAX_ZONE_RUNTIME < now - t := by omega
  simp [scanZone, ht, he, hn]

theorem scanZone_force {now t : Nat} (h0 : 0 < t) (h1 : t ≤ now)
    (h2 : now < t + UINT32_MOD) (h3 : MAX_ZONE_RUNTIME < now - t) :
    scanZone now true t = (false, 0, true) := by
  have ht : ¬t = 0 := by omega
  have he : elapsed32 now t = now - t := elapsed32_eq_sub h1 h2
  simp [scanZone, ht, he, h3]

theorem statusStep_pins (env : String) (now : Nat) (s : Ctrl) :
    (statusStep env now s).1.pins = s.pins := by
  unfold statusStep; split <;> rfl

theorem statusStep_onTime (env : String) (now : Nat) (s : Ctrl) :
    (statusStep env now s).1.onTime = s.onTime := by
  unfold statusStep; split <;> rfl

theorem zOffEvent_inj : ∀ i j : Fin NUM_ZONES, zOffEvent i = zOffEvent j → i = j := by
  decide

theorem statusTopic_ne_zoneStateTopic :
    ∀ z : Fin NUM_ZONES, MQTT_STATUS ≠ zoneStateTopic (z.val + 1) := by
  decide

theorem statusStep_count (env : String) (now : Nat) (s : Ctrl) (z : Fin NUM_ZONES) :
    ((statusStep env now s).2).count (zOffEvent z) = 0 := by
  unfold statusStep
  split
  · split
    · rw [List.count_eq_zero]
      intro h
      rw [List.mem_singleton] at h
      simp only [zOffEvent, Event.publish.injEq] at h
      exact statusTopic_ne_zoneStateTopic z h.1.symm
    · rfl
  · rfl

theorem count_scanFold (now : Nat) (s : Ctrl) (z : Fin NUM_ZONES)
    (l : List (Fin NUM_ZONES)) (hnd : l.Nodup) :
    ((l.foldr
        (fun i acc =>
          if (scanZone now (s.pins i) (s.onTime i)).2.2 then zOffEvent i :: acc else acc)
        []).count (zOffEvent z))
      = if z ∈ l ∧ (scanZone now (s.pins z) (s.onTime z)).2.2 then 1 else 0 := by
  induction l with
  | nil => simp
  | cons hd tl ih =>
    rw [List.nodup_cons] at hnd
    by_cases hz : z = hd
    · subst hz
      have hnm : z ∉ tl := hnd.1
      have h0 : ((tl.foldr
          (fun i acc =>
            if (scanZone now (s.pins i) (s.onTime i)).2.2 then zOffEvent i :: acc else acc)
          []).count (zOffEvent z)) = 0 := by
        rw [ih hnd.2]
        simp [hnm]
      simp only [List.foldr_cons]
      split
      · rw [List.count_cons, h0]
        simp_all
      · rw [h0]
        simp_all
    · have hne : zOffEvent hd ≠ zOffEvent z := fun h => hz (zOffEvent_inj hd z h).symm
      simp only [List.foldr_cons]
      split
      · rw [List.count_cons, ih hnd.2]
        simp [hne, hz]
      · rw [ih hnd.2]
        simp [hz]

theorem count_safetyScanEvents (now : Nat) (s : Ctrl) (z : Fin NUM_ZONES) :
    (safetyScanEvents now s).count (zOffEvent z)
      = if (scanZone now (s.pins z) (s.onTime z)).2.2 then 1 else 0 := by
  unfold safetyScanEvents
  rw [count_scanFold now s z _ (List.nodup_finRange _)]
  simp [List.mem_finRange]

theorem tick_disconnected (cfg : BrokerConfig) (dev env : String) (ok : Bool)
    (msgs : List (List Char × List Nat)) (now : Nat) (s : Ctrl) :
    (tick cfg dev env false ok msgs now s).1.pins = s.pins ∧
      (tick cfg dev env false ok msgs now s).1.onTime = s.onTime := by
  simp only [tick, Bool.false_eq_true, if_false]
  split <;> exact ⟨rfl, rfl⟩

theorem tick_conn_pins (cfg : BrokerConfig) (dev env : String)
    (msgs : List (List Char × List Nat)) (now : Nat) (s : Ctrl) (z : Fin NUM_ZONES) :
    (tick cfg dev env true true msgs now s).1.pins z
      = (scanZone now ((processMsgs s msgs).1.pins z) ((processMsgs s msgs).1.onTime z)).1 := by
  simp only [tick, if_true]
  rw [statusStep_pins]
  rfl

theorem tick_conn_onTime (cfg : BrokerConfig) (dev env : String)
    (msgs : List (List Char × List Nat)) (now : Nat) (s : Ctrl) (z : Fin NUM_ZONES) :
    (tick cfg dev env true true msgs now s).1.onTime z
      = (scanZone now ((processMsgs s msgs).1.pins z) ((processMsgs s msgs).1.onTime z)).2.1 := by
  simp only [tick, if_true]
  rw [statusStep_onTime]
  rfl

theorem tick_conn_count (cfg : BrokerConfig) (dev env : String)
    (msgs : List (List Char × List Nat)) (now : Nat) (s : Ctrl) (z : Fin NUM_ZONES) :
    ((tick cfg dev env true true msgs now s).2).count (zOffEvent z)
      = ((processMsgs s msgs).2).count (zOffEvent z)
        + (if (scanZone now ((processMsgs s msgs).1.pins z)
              ((processMsgs s msgs).1.onTime z)).2.2 then 1 else 0) := by
  simp only [tick, if_true]
  rw [List.count_append, List.count_append, count_safetyScanEvents, statusStep_count]
  omega

theorem processMsgs_nil (s : Ctrl) : processMsgs s [] = (s, []) := rfl

theorem processMsgs_single (s : Ctrl) (tp : List Char) (pl : List Nat) :
    processMsgs s [(tp, pl)] = ((callbackStep s tp pl).1, (callbackStep s tp pl).2) := by
  simp [processMsgs]

theorem MAX_lt_mod : MAX_ZONE_RUNTIME < UINT32_MOD := by decide

theorem runConn_length (cfg : BrokerConfig) (dev env : String)
    (tr : List (Nat × List (List Char × List Nat))) (s : Ctrl) :
    (runConn cfg dev env tr s).2.length = tr.length := by
  induction tr generalizing s with
  | nil => rfl
  | cons hd tl ih => simp [runConn, ih]

theorem runConn_append (cfg : BrokerConfig) (dev env : String)
    (a b : List (Nat × List (List Char × List Nat))) (s : Ctrl) :
    runConn cfg dev env (a ++ b) s
      = ((runConn cfg dev env b (runConn cfg dev env a s).1).1,
         (runConn cfg dev env a s).2
           ++ (runConn cfg dev env b (runConn cfg dev env a s).1).2) := by
  induction a generalizing s with
  | nil => simp [runConn]
  | cons hd tl ih => simp [runConn, ih]

/-- Holding phase: while every tick's time keeps `now - t ≤ MAX_ZONE_RUNTIME`
for an armed zone, the scan leaves the zone ON, the timer at `t`, and emits
no forced-off publish for it. -/
theorem runConn_hold (cfg : BrokerConfig) (dev env : String) (z : Fin NUM_ZONES)
    (t : Nat) (ts : List Nat) :
    ∀ s : Ctrl, s.pins z = true → s.onTime z = t → 0 < t →
      (∀ τ ∈ ts, t ≤ τ ∧ τ ≤ t + MAX_ZONE_RUNTIME) →
      ((runConn cfg dev env (ts.map (fun τ => (τ, []))) s).1.pins z = true
        ∧ (runConn cfg dev env (ts.map (fun τ => (τ, []))) s).1.onTime z = t
        ∧ ∀ evs ∈ (runConn cfg dev env (ts.map (fun τ => (τ, []))) s).2,
            evs.count (zOffEvent z) = 0) := by
  induction ts with
  | nil =>
    intro s h1 h2 _ _
    simp [runConn, h1, h2]
  | cons τ rest ih =>
    intro s h1 h2 h0 hall
    have hb := hall τ (List.mem_cons_self τ rest)
    have hscan : scanZone τ (s.pins z) (s.onTime z) = (true, t, false) := by
      rw [h1, h2]
      exact scanZone_keep h0 hb.1 (by have := MAX_lt_mod; omega) (by omega)
    have hp := tick_conn_pins cfg dev env [] τ s z
    have ho := tick_conn_onTime cfg dev env [] τ s z
    have hc := tick_conn_count cfg dev env [] τ s z
    rw [processMsgs_nil] at hp ho hc
    simp only [hscan] at hp ho hc
    have hrest := ih (tick cfg dev env true true [] τ s).1 hp ho h0
      (fun τ' hm => hall τ' (List.mem_cons_of_mem _ hm))
    simp only [List.map_cons, runConn]
    refine ⟨hrest.1, hrest.2.1, ?_⟩
    intro evs hm
    rw [List.mem_cons] at hm
    rcases hm with hm | hm
    · rw [hm, hc]; rfl
    · exact hrest.2.2 evs hm

/-- After a forced shutoff (or while simply OFF with a clear timer), later
scan ticks change nothing and never publish forced-off for the zone. -/
theorem runConn_offPhase (cfg : BrokerConfig) (dev env : String) (z : Fin NUM_ZONES)
    (ts : List Nat) :
    ∀ s : Ctrl, s.pins z = false → s.onTime z = 0 →
      ((runConn cfg dev env (ts.map (fun τ => (τ, []))) s).1.pins z = false
        ∧ (runConn cfg dev env (ts.map (fun τ => (τ, []))) s).1.onTime z = 0
        ∧ ∀ evs ∈ (runConn cfg dev env (ts.map (fun τ => (τ, []))) s).2,
            evs.count (zOffEvent z) = 0) := by
  induction ts with
  | nil =>
    intro s h1 h2
    simp [runConn, h1, h2]
  | cons τ rest ih =>
    intro s h1 h2
    have hscan : scanZone τ (s.pins z) (s.onTime z) = (false, 0, false) := by
      rw [h1, h2]; exact scanZone_off τ 0
    have hp := tick_conn_pins cfg dev env [] τ s z
    have ho := tick_conn_onTime cfg dev env [] τ s z
    have hc := tick_conn_count cfg dev env [] τ s z
    rw [processMsgs_nil] at hp ho hc
    simp only [hscan] at hp ho hc
    have hrest := ih (tick cfg dev env true true [] τ s).1 hp ho
    simp only [List.map_cons, runConn]
    refine ⟨hrest.1, hrest.2.1, ?_⟩
    intro evs hm
    rw [List.mem_cons] at hm
    rcases hm with hm | hm
    · rw [hm, hc]; rfl
    · exact hrest.2.2 evs hm

/-- Canonical command topics parse to exactly the zone number. -/
theorem parseZone_canonical :
    ∀ z : Fin NUM_ZONES,
      parseZone ((zoneCommandTopic (z.val + 1)).toList) = some ((z.val : Int) + 1) := by
  decide

theorem callbackStep_on (s : Ctrl) (z : Fin NUM_ZONES) :
    callbackStep s ((zoneCommandTopic (z.val + 1)).toList) ON_BYTES
      = ({ s with pins := Function.update s.pins z true },
         [Event.publish (zoneStateTopic (z.val + 1)) "ON" true]) := by
  have hz : ((z.val : Int) + 1).toNat = z.val + 1 := by omega
  have hcmd : decideCmd ON_BYTES = some true := by decide
  have hlt : (0 : Int) < (z.val : Int) + 1 ∧ (z.val : Int) + 1 ≤ (NUM_ZONES : Int) := by
    have := z.isLt
    unfold NUM_ZONES at *
    omega
  unfold callbackStep
  rw [parseZone_canonical z]
  simp only [hcmd, dif_pos hlt, hz]
  have hfin : (⟨z.val + 1 - 1, by unfold NUM_ZONES at *; omega⟩ : Fin NUM_ZONES) = z := by
    apply Fin.ext
    simp
  rw [hfin]

theorem pubOn_ne_zOff (t : String) (z : Fin NUM_ZONES) :
    Event.publish t "ON" true ≠ zOffEvent z := by
  intro h
  simp only [zOffEvent, Event.publish.injEq] at h
  exact absurd h.2.1 (by decide)

/-- The tick during which the ON command for zone `z` arrives: the callback
drives the pin HIGH and publishes retained `ON`; the safety scan of the same
tick arms the (previously clear) timer at the tick's time; no forced-off
publish occurs. -/
theorem tick_onMsg (cfg : BrokerConfig) (dev env : String) (now : Nat) (s : Ctrl)
    (z : Fin NUM_ZONES) (ht : s.onTime z = 0) :
    ((tick cfg dev env true true [((zoneCommandTopic (z.val + 1)).toList, ON_BYTES)] now s).1.pins z
        = true)
      ∧ ((tick cfg dev env true true [((zoneCommandTopic (z.val + 1)).toList, ON_BYTES)] now s).1.onTime z
          = now)
      ∧ (((tick cfg dev env true true [((zoneCommandTopic (z.val + 1)).toList, ON_BYTES)] now s).2).count
            (zOffEvent z) = 0) := by
  have hp := tick_conn_pins cfg dev env
    [((zoneCommandTopic (z.val + 1)).toList, ON_BYTES)] now s z
  have ho := tick_conn_onTime cfg dev env
    [((zoneCommandTopic (z.val + 1)).toList, ON_BYTES)] now s z
  have hc := tick_conn_count cfg dev env
    [((zoneCommandTopic (z.val + 1)).toList, ON_BYTES)] now s z
  rw [processMsgs_single, callbackStep_on] at hp ho hc
  simp only [Function.update_same] at hp ho
  rw [ht] at ho hp
  rw [scanZone_arm] at hp ho
  refine ⟨hp, ho, ?_⟩
  have hne := pubOn_ne_zOff (zoneStateTopic (z.val + 1)) z
  rw [hc]
  simp [ht, scanZone_arm, hne]
  rw [List.count_eq_zero]
  simp only [List.mem_singleton]
  exact fun h => hne h.symm

theorem c1_aux (cfg : BrokerConfig) (dev env : String) (z : Fin NUM_ZONES)
    (t0 : Nat) (A B : List Nat) (τj : Nat) (s0 : Ctrl)
    (ht : s0.onTime z = 0) (ht0 : 0 < t0)
    (hA : ∀ τ ∈ A, t0 ≤ τ ∧ τ ≤ t0 + MAX_ZONE_RUNTIME)
    (h1 : t0 ≤ τj) (h2 : τj < t0 + UINT32_MOD) (h3 : t0 + MAX_ZONE_RUNTIME < τj) :
    (((runConn cfg dev env
          ((t0, [((zoneCommandTopic (z.val + 1)).toList, ON_BYTES)])
            :: (A ++ τj :: B).map (fun τ => (τ, []))) s0).2.map
        (fun evs => evs.count (zOffEvent z)))
        = List.replicate (A.length + 1) 0 ++ 1 :: List.replicate B.length 0)
      ∧ ((runConn cfg dev env
          ((t0, [((zoneCommandTopic (z.val + 1)).toList, ON_BYTES)])
            :: (A ++ τj :: B).map (fun τ => (τ, []))) s0).1.pins z = false) := by
  have h0 := tick_onMsg cfg dev env t0 s0 z ht
  simp only [runConn, List.map_append, List.map_cons, runConn_append, List.map_cons]
  have hhold := runConn_hold cfg dev env z t0 A
    ((tick cfg dev env true true
        [((zoneCommandTopic (z.val + 1)).toList, ON_BYTES)] t0 s0).1)
    h0.1 h0.2.1 ht0 hA
  have hscan : scanZone τj
      ((runConn cfg dev env (A.map fun τ => (τ, []))
          ((tick cfg dev env true true
              [((zoneCommandTopic (z.val + 1)).toList, ON_BYTES)] t0 s0).1)).1.pins z)
      ((runConn cfg dev env (A.map fun τ => (τ, []))
          ((tick cfg dev env true true
              [((zoneCommandTopic (z.val + 1)).toList, ON_BYTES)] t0 s0).1)).1.onTime z)
      = (false, 0, true) := by
    rw [hhold.1, hhold.2.1]
    exact scanZone_force ht0 h1 h2 (by omega)
  have hp := tick_conn_pins cfg dev env [] τj
    ((runConn cfg dev env (A.map fun τ => (τ, []))
        ((tick cfg dev env true true
            [((zoneCommandTopic (z.val + 1)).toList, ON_BYTES)] t0 s0).1)).1) z
  have ho := tick_conn_onTime cfg dev env [] τj
    ((runConn cfg dev env (A.map fun τ => (τ, []))
        ((tick cfg dev env true true
            [((zoneCommandTopic (z.val + 1)).toList, ON_BYTES)] t0 s0).1)).1) z
  have hc := tick_conn_count cfg dev env [] τj
    ((runConn cfg dev env (A.map fun τ => (τ, []))
        ((tick cfg dev env true true
            [((zoneCommandTopic (z.val + 1)).toList, ON_BYTES)] t0 s0).1)).1) z
  rw [processMsgs_nil] at hp ho hc
  simp only [hscan] at hp ho hc
  simp only [List.count_nil, Nat.zero_add, if_true] at hc
  have hoff := runConn_offPhase cfg dev env z B
    ((tick cfg dev env true true [] τj
        ((runConn cfg dev env (A.map fun τ => (τ, []))
            ((tick cfg dev env true true
                [((zoneCommandTopic (z.val + 1)).toList, ON_BYTES)] t0 s0).1)).1)).1)
    hp ho
  refine ⟨?_, hoff.1⟩
  have hAzero : ((runConn cfg dev env (A.map fun τ => (τ, []))
      ((tick cfg dev env true true
          [((zoneCommandTopic (z.val + 1)).toList, ON_BYTES)] t0 s0).1)).2.map
        (fun evs => evs.count (zOffEvent z)))
      = List.replicate A.length 0 := by
    have hlen : ((runConn cfg dev env (A.map fun τ => (τ, []))
        ((tick cfg dev env true true
            [((zoneCommandTopic (z.val + 1)).toList, ON_BYTES)] t0 s0).1)).2.map
          (fun evs => evs.count (zOffEvent z))).length = A.length := by
      rw [List.length_map, runConn_length, List.length_map]
    rw [← hlen]
    apply List.eq_replicate_of_mem
    intro b hb
    rw [List.mem_map] at hb
    obtain ⟨evs, hevs, hbe⟩ := hb
    rw [← hbe]
    exact hhold.2.2 evs hevs
  have hBzero : ((runConn cfg dev env (B.map fun τ => (τ, []))
      ((tick cfg dev env true true [] τj
          ((runConn cfg dev env (A.map fun τ => (τ, []))
              ((tick cfg dev env true true
                  [((zoneCommandTopic (z.val + 1)).toList, ON_BYTES)] t0 s0).1)).1)).1)).2.map
        (fun evs => evs.count (zOffEvent z)))
      = List.replicate B.length 0 := by
    have hlen : ((runConn cfg dev env (B.map fun τ => (τ, []))
        ((tick cfg dev env true true [] τj
            ((runConn cfg dev env (A.map fun τ => (τ, []))
                ((tick cfg dev env true true
                    [((zoneCommandTopic (z.val + 1)).toList, ON_BYTES)] t0 s0).1)).1)).1)).2.map
          (fun evs => evs.count (zOffEvent z))).length = B.length := by
      rw [List.length_map, runConn_length, List.length_map]
    rw [← hlen]
    apply List.eq_replicate_of_mem
    intro b hb
    rw [List.mem_map] at hb
    obtain ⟨evs, hevs, hbe⟩ := hb
    rw [← hbe]
    exact hoff.2.2 evs hevs
  rw [h0.2.2, hAzero, hc, hBzero]
  simp [List.replicate_succ]

/-- **C1.** For a zone commanded ON during the connected tick at time `t0`
and then left alone, over any continuation of connected ticks whose times
stay within one 32-bit wrap of `t0`, the safety scan forces the zone OFF at
exactly the first tick whose time exceeds `t0 + MAX_ZONE_RUNTIME`
(2 hours), not at any earlier tick, and the run publishes retained `OFF` to
that zone's state topic exactly once (at that tick); the zone's output ends
LOW. -/
theorem c1_forced_off_at_first_crossing (cfg : BrokerConfig) (dev env : String)
    (z : Fin NUM_ZONES) (s0 : Ctrl) (t0 : Nat) (ts : List Nat) (j : Nat)
    (ht : s0.onTime z = 0) (ht0 : 0 < t0)
    (hbound : ∀ τ ∈ ts, t0 ≤ τ ∧ τ < t0 + UINT32_MOD)
    (hj : j < ts.length)
    (hbefore : ∀ τ ∈ ts.take j, τ ≤ t0 + MAX_ZONE_RUNTIME)
    (hcross : t0 + MAX_ZONE_RUNTIME < ts.getD j 0) :
    (((runConn cfg dev env
          ((t0, [((zoneCommandTopic (z.val + 1)).toList, ON_BYTES)])
            :: ts.map (fun τ => (τ, []))) s0).2.map
        (fun evs => evs.count (zOffEvent z)))
        = List.replicate (j + 1) 0 ++ 1 :: List.replicate (ts.length - (j + 1)) 0)
      ∧ ((runConn cfg dev env
          ((t0, [((zoneCommandTopic (z.val + 1)).toList, ON_BYTES)])
            :: ts.map (fun τ => (τ, []))) s0).1.pins z = false) := by
  have hdec : ts = ts.take j ++ ts.getD j 0 :: ts.drop (j + 1) := by
    rw [List.getD_eq_getElem ts 0 hj, ← List.drop_eq_getElem_cons hj,
      List.take_append_drop]
  have hτmem : ts.getD j 0 ∈ ts := by
    rw [List.getD_eq_getElem ts 0 hj]
    exact List.getElem_mem hj
  have hτ := hbound _ hτmem
  have hmain := c1_aux cfg dev env z t0 (ts.take j) (ts.drop (j + 1)) (ts.getD j 0) s0
    ht ht0
    (fun τ hm => ⟨(hbound τ (List.take_subset j ts hm)).1, hbefore τ hm⟩)
    hτ.1 hτ.2 hcross
  rw [← hdec] at hmain
  have hlt : (ts.take j).length = j := by
    rw [List.length_take]
    omega
  have hld : (ts.drop (j + 1)).length = ts.length - (j + 1) := List.length_drop (j + 1) ts
  rw [hlt, hld] at hmain
  exact hmain

/-- The §3 data-model invariant: `zone_on_time[z]` is non-zero iff the
zone's output reads ON. -/
def timerInvariant (s : Ctrl) : Prop :=
  ∀ z : Fin NUM_ZONES, s.onTime z ≠ 0 ↔ s.pins z = true

instance (s : Ctrl) : Decidable (timerInvariant s) := by
  unfold timerInvariant; infer_instance

theorem scanZone_establishes_inv (now : Nat) (p : Bool) (t : Nat) (h : 0 < now) :
    ((scanZone now p t).2.1 ≠ 0 ↔ (scanZone now p t).1 = true) := by
  cases p with
  | false => simp [scanZone]
  | true =>
    unfold scanZone
    by_cases h0 : t = 0
    · simp [h0]; omega
    · by_cases h1 : MAX_ZONE_RUNTIME < elapsed32 now t
      · simp [h0, h1]
      · simp [h0, h1]

theorem tick_conn_ok_irrel (cfg : BrokerConfig) (dev env : String) (ok : Bool)
    (msgs : List (List Char × List Nat)) (now : Nat) (s : Ctrl) :
    tick cfg dev env true ok msgs now s = tick cfg dev env true true msgs now s := rfl

theorem callbackStep_onTime_const (s : Ctrl) (tp : List Char) (pl : List Nat)
    (z : Fin NUM_ZONES) : (callbackStep s tp pl).1.onTime z = s.onTime z := by
  unfold callbackStep
  rcases hpz : parseZone tp with _ | v
  · rfl
  · dsimp only
    split
    · rcases hdc : decideCmd pl with _ | b
      · rfl
      · cases b <;> rfl
    · rfl

/-! ### Claims -/

/-- **C2.** The safety-ceiling scan runs only on connected ticks: a tick
taken while the MQTT client is disconnected leaves every zone's output and
safety timer untouched — no zone is forced OFF — no matter how long any
zone has been ON and regardless of whether the reconnect attempt inside
that tick runs or succeeds. -/
theorem c2_no_safety_enforcement_while_disconnected (cfg : BrokerConfig)
    (dev env : String) (ok : Bool) (msgs : List (List Char × List Nat))
    (now : Nat) (s : Ctrl) (z : Fin NUM_ZONES) :
    (tick cfg dev env false ok msgs now s).1.pins z = s.pins z
      ∧ (tick cfg dev env false ok msgs now s).1.onTime z = s.onTime z := by
  have h := tick_disconnected cfg dev env ok msgs now s
  exact ⟨congrFun h.1 z, congrFun h.2 z⟩

/-- **C3 counterexample.** Command execution does not preserve the claimed
invariant: from the boot state (which satisfies it), executing the ON
command for zone 1 drives the output HIGH but leaves `zone_on_time[0] = 0`
(the callback never writes the timer), so after this operation the state
violates `activatedAt ≠ 0 ↔ outputState = ON`. -/
theorem c3_cex_on_command_breaks_invariant :
    timerInvariant initCtrl
      ∧ (callbackStep initCtrl ((zoneCommandTopic 1).toList) ON_BYTES).1.pins
          ⟨0, by decide⟩ = true
      ∧ (callbackStep initCtrl ((zoneCommandTopic 1).toList) ON_BYTES).1.onTime
          ⟨0, by decide⟩ = 0
      ∧ ¬timerInvariant (callbackStep initCtrl ((zoneCommandTopic 1).toList) ON_BYTES).1 := by
  decide

/-- **C3 amended.** The invariant `zone_on_time[z] ≠ 0 ↔ zone z ON` holds
at boot and at every tick boundary (any tick with a nonzero time
re-establishes it, the safety scan rewriting every zone's timer after the
callbacks have run); it is *not* preserved by command execution alone — an
ON command leaves the timer at 0 and an OFF command leaves it nonzero until
the scan at the end of the same connected tick repairs it. -/
theorem c3_amended_invariant_at_tick_boundaries :
    timerInvariant initCtrl
      ∧ (∀ (cfg : BrokerConfig) (dev env : String) (conn ok : Bool)
          (msgs : List (List Char × List Nat)) (now : Nat) (s : Ctrl),
          timerInvariant s → 0 < now →
          timerInvariant (tick cfg dev env conn ok msgs now s).1) := by
  refine ⟨by decide, ?_⟩
  intro cfg dev env conn ok msgs now s hinv hnow
  cases conn with
  | false =>
    intro z
    have h := tick_disconnected cfg dev env ok msgs now s
    rw [congrFun h.1 z, congrFun h.2 z]
    exact hinv z
  | true =>
    intro z
    rw [tick_conn_ok_irrel, tick_conn_pins, tick_conn_onTime]
    exact scanZone_establishes_inv now _ _ hnow

def cfgW : BrokerConfig :=
  { server := "broker.local", port := "1883".toList, user := "", password := "" }

theorem c3_amended_witness :
    timerInvariant initCtrl
      ∧ timerInvariant (tick cfgW "AABBCCDD" "st" true true [] 5 initCtrl).1 :=
  ⟨c3_amended_invariant_at_tick_boundaries.1,
   c3_amended_invariant_at_tick_boundaries.2 cfgW "AABBCCDD" "st" true true [] 5 initCtrl
     (by decide) (by decide)⟩

/-- **C7.** The callback's copy into `char message[MQTT_MESSAGE_BUFFER_SIZE]`:
a payload of length ≥ the capacity (8) has exactly `capacity − 1 = 7` bytes
copied, followed by the NUL terminator; for every payload length the bytes
written (copy plus terminator) never exceed the buffer's capacity. -/
theorem c7_payload_truncation (p : List Nat) :
    (MQTT_MESSAGE_BUFFER_SIZE ≤ p.length →
        messageBytes p = p.take (MQTT_MESSAGE_BUFFER_SIZE - 1) ++ [0]
          ∧ (p.take (MQTT_MESSAGE_BUFFER_SIZE - 1)).length = MQTT_MESSAGE_BUFFER_SIZE - 1)
      ∧ (messageBytes p).length ≤ MQTT_MESSAGE_BUFFER_SIZE := by
  constructor
  · intro h
    unfold messageBytes truncPayload copyLen
    rw [if_pos h]
    refine ⟨rfl, ?_⟩
    rw [List.length_take]
    unfold MQTT_MESSAGE_BUFFER_SIZE at *
    omega
  · unfold messageBytes truncPayload copyLen
    rw [List.length_append, List.length_take, List.length_singleton]
    unfold MQTT_MESSAGE_BUFFER_SIZE
    split <;> omega

theorem c7_witness :
    (MQTT_MESSAGE_BUFFER_SIZE ≤ ([65, 66, 67, 68, 69, 70, 71, 72, 73] : List Nat).length)
      ∧ (messageBytes [65, 66, 67, 68, 69, 70, 71, 72, 73]
            = ([65, 66, 67, 68, 69, 70, 71, 72, 73] : List Nat).take
                (MQTT_MESSAGE_BUFFER_SIZE - 1) ++ [0]
          ∧ (([65, 66, 67, 68, 69, 70, 71, 72, 73] : List Nat).take
              (MQTT_MESSAGE_BUFFER_SIZE - 1)).length = MQTT_MESSAGE_BUFFER_SIZE - 1) :=
  ⟨by decide, (c7_payload_truncation [65, 66, 67, 68, 69, 70, 71, 72, 73]).1 (by decide)⟩

/-- **C10.** The safety timer is armed only by the scan of a connected tick
that observes the zone ON (never by the command itself); a disconnected
tick touches neither outputs nor timers, so an armed timer persists through
an outage while the zone stays ON, the outage time counts toward the
ceiling, and the first connected tick at which `now - armedAt` exceeds
`MAX_ZONE_RUNTIME` forces the zone OFF with a single retained OFF publish. -/
theorem c10_arming_and_persistence :
    (∀ (s : Ctrl) (tp : List Char) (pl : List Nat) (z : Fin NUM_ZONES),
        (callbackStep s tp pl).1.onTime z = s.onTime z)
      ∧ (∀ (cfg : BrokerConfig) (dev env : String) (now : Nat) (s : Ctrl)
          (z : Fin NUM_ZONES), s.pins z = true → s.onTime z = 0 →
          (tick cfg dev env true true [] now s).1.onTime z = now)
      ∧ (∀ (cfg : BrokerConfig) (dev env : String) (ok : Bool)
          (msgs : List (List Char × List Nat)) (now : Nat) (s : Ctrl)
          (z : Fin NUM_ZONES),
          (tick cfg dev env false ok msgs now s).1.onTime z = s.onTime z
            ∧ (tick cfg dev env false ok msgs now s).1.pins z = s.pins z)
      ∧ (∀ (cfg : BrokerConfig) (dev env : String) (now t : Nat) (s : Ctrl)
          (z : Fin NUM_ZONES),
          s.pins z = true → s.onTime z = t → 0 < t → t ≤ now →
          now < t + UINT32_MOD → t + MAX_ZONE_RUNTIME < now →
          (tick cfg dev env true true [] now s).1.pins z = false
            ∧ ((tick cfg dev env true true [] now s).2).count (zOffEvent z) = 1) := by
  refine ⟨callbackStep_onTime_const, ?_, ?_, ?_⟩
  · intro cfg dev env now s z h1 h2
    rw [tick_conn_onTime, processMsgs_nil]
    simp only [h1, h2, scanZone_arm]
  · intro cfg dev env ok msgs now s z
    have h := tick_disconnected cfg dev env ok msgs now s
    exact ⟨congrFun h.2 z, congrFun h.1 z⟩
  · intro cfg dev env now t s z h1 h2 h3 h4 h5 h6
    have hscan : scanZone now (s.pins z) (s.onTime z) = (false, 0, true) := by
      rw [h1, h2]
      exact scanZone_force h3 h4 h5 (by omega)
    have hp := tick_conn_pins cfg dev env [] now s z
    have hc := tick_conn_count cfg dev env [] now s z
    rw [processMsgs_nil] at hp hc
    simp only [hscan] at hp hc
    simp only [List.count_nil, Nat.zero_add, if_true] at hc
    exact ⟨hp, hc⟩

def sOn2 : Ctrl :=
  { pins := fun i => decide (i.val = 1), onTime := fun _ => 0,
    lastReconnectAttempt := 0, lastStatusReport := 0 }

def sArmed2 : Ctrl :=
  { pins := fun i => decide (i.val = 1),
    onTime := fun i => if i.val = 1 then 1000 else 0,
    lastReconnectAttempt := 0, lastStatusReport := 0 }

theorem c10_witness :
    (tick cfgW "AABBCCDD" "st" true true [] 5 sOn2).1.onTime ⟨1, by decide⟩ = 5
      ∧ ((tick cfgW "AABBCCDD" "st" true true [] 7300000 sArmed2).1.pins
            ⟨1, by decide⟩ = false
          ∧ ((tick cfgW "AABBCCDD" "st" true true [] 7300000 sArmed2).2).count
              (zOffEvent ⟨1, by decide⟩) = 1) :=
  ⟨c10_arming_and_persistence.2.1 cfgW "AABBCCDD" "st" 5 sOn2 ⟨1, by decide⟩
     (by decide) (by decide),
   c10_arming_and_persistence.2.2.2 cfgW "AABBCCDD" "st" 7300000 1000 sArmed2
     ⟨1, by decide⟩ (by decide) (by decide) (by decide) (by decide) (by decide)
     (by decide)⟩

theorem c1_witness :
    ((0 : Nat) < 1000
      ∧ (∀ τ ∈ ([7201000, 7202000] : List Nat), 1000 ≤ τ ∧ τ < 1000 + UINT32_MOD)
      ∧ 1 < ([7201000, 7202000] : List Nat).length
      ∧ (∀ τ ∈ ([7201000, 7202000] : List Nat).take 1, τ ≤ 1000 + MAX_ZONE_RUNTIME)
      ∧ 1000 + MAX_ZONE_RUNTIME < ([7201000, 7202000] : List Nat).getD 1 0)
    ∧ ((((runConn cfgW "AABBCCDD" "st"
          ((1000, [((zoneCommandTopic ((⟨1, by decide⟩ : Fin NUM_ZONES).val + 1)).toList,
              ON_BYTES)])
            :: ([7201000, 7202000] : List Nat).map (fun τ => (τ, []))) initCtrl).2.map
          (fun evs => evs.count (zOffEvent ⟨1, by decide⟩)))
          = List.replicate 2 0 ++ 1 :: List.replicate 0 0)
        ∧ ((runConn cfgW "AABBCCDD" "st"
            ((1000, [((zoneCommandTopic ((⟨1, by decide⟩ : Fin NUM_ZONES).val + 1)).toList,
                ON_BYTES)])
              :: ([7201000, 7202000] : List Nat).map (fun τ => (τ, []))) initCtrl).1.pins
            ⟨1, by decide⟩ = false)) :=
  ⟨⟨by decide, by decide, by decide, by decide, by decide⟩,
   c1_forced_off_at_first_crossing cfgW "AABBCCDD" "st" ⟨1, by decide⟩ initCtrl 1000
     [7201000, 7202000] 1 rfl (by decide) (by decide) (by decide) (by decide)
     (by decide)⟩

/-! ### `strstr` position lemmas for the topic parser -/

theorem findSub_zoneMarker_at (rest : List Char) :
    findSub ("home/sprinkler/zone/".toList ++ rest) zoneMarker 0 = some 14 := by
  simp [findSub, zoneMarker, List.isPrefixOf_iff_prefix, List.cons_prefix_cons]

/-- First occurrence of a needle `c0 :: c1 :: nd'` that terminates the
haystack, provided `c1` does not occur in the leading part and the needle
does not start with two equal characters. -/
theorem findSub_append_self (c0 c1 : Char) (nd' : List Char) (mid : List Char)
    (hne : c0 ≠ c1) :
    ∀ i : Nat, c1 ∉ mid →
      findSub (mid ++ (c0 :: c1 :: nd')) (c0 :: c1 :: nd') i = some (i + mid.length) := by
  induction mid with
  | nil =>
    intro i _
    rw [List.nil_append, findSub, if_pos]
    · simp
    · rw [List.isPrefixOf_iff_prefix]
  | cons m ms ih =>
    intro i hnm
    have hcond : ¬(c0 :: c1 :: nd').isPrefixOf (m :: (ms ++ (c0 :: c1 :: nd'))) := by
      rw [List.isPrefixOf_iff_prefix, List.cons_prefix_cons]
      rintro ⟨h1, h2⟩
      cases ms with
      | nil =>
        rw [List.nil_append, List.cons_prefix_cons] at h2
        exact hne h2.1.symm
      | cons m2 ms2 =>
        rw [List.cons_append, List.cons_prefix_cons] at h2
        exact hnm (by rw [List.mem_cons, List.mem_cons]; exact Or.inr (Or.inl h2.1))
    rw [List.cons_append, findSub, if_neg hcond,
      ih (i + 1) (fun hm => hnm (List.mem_cons_of_mem m hm))]
    congr 1
    simp
    omega

theorem findSub_commandMarker_at (mid : List Char) (hmid : 'c' ∉ mid) :
    findSub ("home/sprinkler/zone/".toList ++ (mid ++ commandMarker)) commandMarker 0
      = some (20 + mid.length) := by
  have hdecomp : commandMarker = '/' :: 'c' :: "ommand".toList := by decide
  have hnm : 'c' ∉ "home/sprinkler/zone/".toList ++ mid := by
    rw [List.mem_append]
    rintro (h | h)
    · exact absurd h (by decide)
    · exact hmid h
  have h := findSub_append_self '/' 'c' ("ommand".toList)
    ("home/sprinkler/zone/".toList ++ mid) (by decide) 0 hnm
  rw [← hdecomp] at h
  rw [← List.append_assoc, h]
  congr 1
  rw [List.length_append]
  have hP : ("home/sprinkler/zone/".toList).length = 20 := by decide
  omega

/-- **C4 counterexample.** In `home/sprinkler/zone/+3/command` the
character immediately after the `/zone/` marker is `'+'`, not a decimal
digit, so the claim predicts zone 0; the code's `atoi` skips the sign and
extracts zone 3 (which is in range, so the zone-3 output would be driven). -/
theorem c4_cex_sign_skipped_by_atoi :
    (("home/sprinkler/zone/+3/command".toList.drop 20).head? = some '+')
      ∧ '+'.isDigit = false
      ∧ parseZone ("home/sprinkler/zone/+3/command".toList) = some 3
      ∧ (3 : Int) ≠ 0 := by
  decide

/-- **C4 amended.** Zone extraction follows C `atoi` semantics on the text
after the first `/zone/`: leading ASCII whitespace and one optional
`+`/`-` sign are skipped, then the run of decimal digits is read, stopping
at the first non-digit.  For every topic `home/sprinkler/zone/{mid}/command`
(`mid` free of `'c'`) the extracted value is exactly `atoi` of the
remainder; canonical topics with `z ∈ [1, N]` extract exactly `z`; a zone 0
results when, after that skipping, no digit follows (rather than whenever
no digit immediately follows the marker). -/
theorem c4_amended_atoi_extraction (mid : List Char) (hmid : 'c' ∉ mid) :
    parseZone ("home/sprinkler/zone/".toList ++ mid ++ "/command".toList)
        = some (atoiList (mid ++ "/command".toList))
      ∧ (∀ z : Fin NUM_ZONES,
          parseZone ((zoneCommandTopic (z.val + 1)).toList) = some ((z.val : Int) + 1))
      ∧ (∀ l : List Char,
          (∀ c, (l.dropWhile isAsciiSpace).head? = some c →
              c.isDigit = false ∧ c ≠ '+' ∧ c ≠ '-') →
          atoiList l = 0) := by
  refine ⟨?_, parseZone_canonical, ?_⟩
  · unfold parseZone
    rw [show ("/command".toList : List Char) = commandMarker from rfl,
      List.append_assoc, findSub_zoneMarker_at (mid ++ commandMarker),
      findSub_commandMarker_at mid hmid]
    dsimp only
    rw [if_pos (by omega)]
    have hdrop : ("home/sprinkler/zone/".toList ++ (mid ++ commandMarker)).drop
        (14 + zoneMarker.length) = mid ++ commandMarker := by
      have h20 : 14 + zoneMarker.length = ("home/sprinkler/zone/".toList).length := by
        decide
      rw [h20, List.drop_left]
    rw [hdrop]
  · intro l hl
    unfold atoiList
    cases hh : l.dropWhile isAsciiSpace with
    | nil => simp [digitRunVal]
    | cons c t =>
      have hc := hl c (by rw [hh]; rfl)
      simp only [List.head?_cons]
      rw [if_neg (by simp [hc.2.2]), if_neg (by simp [hc.2.1])]
      unfold digitRunVal
      rw [List.takeWhile_cons_of_neg (by simp [hc.1])]
      rfl

theorem c4_amended_witness :
    ('c' ∉ (['4', '2'] : List Char))
      ∧ parseZone ("home/sprinkler/zone/".toList ++ ['4', '2'] ++ "/command".toList)
          = some (atoiList (['4', '2'] ++ "/command".toList)) :=
  ⟨by decide, (c4_amended_atoi_extraction ['4', '2'] (by decide)).1⟩

/-- **C5.** Whenever the topic is rejected (missing or mis-ordered
`/zone/` / `/command` markers) or the extracted zone number is out of
range (`≤ 0`, which covers the zone-0 and non-numeric cases, or `> N`),
the callback is a no-op: every zone output and timer is unchanged and
nothing is published. -/
theorem c5_invalid_zone_noop (topic : List Char) (payload : List Nat) (s : Ctrl)
    (h : parseZone topic = none
        ∨ ∃ v, parseZone topic = some v ∧ (v ≤ 0 ∨ (NUM_ZONES : Int) < v)) :
    (∀ z, (callbackStep s topic payload).1.pins z = s.pins z)
      ∧ (∀ z, (callbackStep s topic payload).1.onTime z = s.onTime z)
      ∧ (callbackStep s topic payload).2 = [] := by
  unfold callbackStep
  rcases h with h | ⟨v, hv, hrange⟩
  · rw [h]
    exact ⟨fun z => rfl, fun z => rfl, rfl⟩
  · rw [hv]
    dsimp only
    rw [dif_neg]
    · exact ⟨fun z => rfl, fun z => rfl, rfl⟩
    · rintro ⟨ha, hb⟩
      unfold NUM_ZONES at *
      omega

theorem c5_witness :
    (∃ v, parseZone ("home/sprinkler/zone/99/command".toList) = some v
        ∧ (v ≤ 0 ∨ (NUM_ZONES : Int) < v))
      ∧ ((∀ z, (callbackStep initCtrl ("home/sprinkler/zone/99/command".toList)
            [55]).1.pins z = initCtrl.pins z)
          ∧ (∀ z, (callbackStep initCtrl ("home/sprinkler/zone/99/command".toList)
              [55]).1.onTime z = initCtrl.onTime z)
          ∧ (callbackStep initCtrl ("home/sprinkler/zone/99/command".toList) [55]).2
              = []) :=
  ⟨⟨99, by decide, by decide⟩,
   c5_invalid_zone_noop ("home/sprinkler/zone/99/command".toList) [55] initCtrl
     (Or.inr ⟨99, by decide, by decide⟩)⟩

def sOn3 : Ctrl :=
  { pins := fun i => decide (i.val = 2), onTime := fun _ => 0,
    lastReconnectAttempt := 0, lastStatusReport := 0 }

/-- **C6 counterexample.** The two-byte payload `0x30 0x00` is not the
exact byte string `"0"`, yet on a valid zone-3 command topic it commands
OFF (it switches the ON zone 3 output LOW and publishes retained `OFF`):
`strcmp` compares the buffered copy only up to its first NUL byte, so the
digit match is not an exact byte match of the payload. -/
theorem c6_cex_interior_nul_matches_digit :
    ([48, 0] ≠ ([48] : List Nat))
      ∧ decideCmd [48, 0] = some false
      ∧ sOn3.pins ⟨2, by decide⟩ = true
      ∧ (callbackStep sOn3 ("home/sprinkler/zone/3/command".toList) [48, 0]).1.pins
          ⟨2, by decide⟩ = false
      ∧ (callbackStep sOn3 ("home/sprinkler/zone/3/command".toList) [48, 0]).2
          = [Event.publish (zoneStateTopic 3) "OFF" true] := by
  decide

/-- **C6 amended.** For payloads free of NUL bytes (after truncation to 7
bytes) the matching is exactly as claimed: the word forms are compared
case-insensitively (`toupper` of the copy against `"ON"`/`"OFF"`), the
digit forms `"1"`/`"0"` by exact byte comparison, ON taking priority, and
everything else is a no-op.  A payload containing a NUL byte is matched by
its C-string content up to the first NUL instead of its exact bytes. -/
theorem c6_amended_payload_matching :
    (∀ p : List Nat, (0 : Nat) ∉ truncPayload p →
        (decideCmd p = some true ↔ (upperCString p = ON_BYTES ∨ truncPayload p = [49]))
          ∧ (decideCmd p = some false ↔
              (¬(upperCString p = ON_BYTES ∨ truncPayload p = [49])
                ∧ (upperCString p = OFF_BYTES ∨ truncPayload p = [48]))))
      ∧ decideCmd [79, 78] = some true
      ∧ decideCmd [111, 110] = some true
      ∧ decideCmd [79, 110] = some true
      ∧ decideCmd [49] = some true
      ∧ decideCmd [79, 70, 70] = some false
      ∧ decideCmd [111, 102, 102] = some false
      ∧ decideCmd [79, 102, 102] = some false
      ∧ decideCmd [48] = some false
      ∧ decideCmd [50] = none := by
  refine ⟨?_, by decide, by decide, by decide, by decide, by decide, by decide,
    by decide, by decide, by decide⟩
  intro p hp
  have hmsg : msgCString p = truncPayload p := by
    unfold msgCString
    rw [List.takeWhile_eq_self_iff]
    intro a ha
    simp only [ne_eq, decide_eq_true_eq]
    exact fun h0 => hp (h0 ▸ ha)
  unfold decideCmd
  rw [hmsg]
  by_cases h1 : (upperCString p = ON_BYTES ∨ truncPayload p = [49])
  · simp [h1]
  · by_cases h2 : (upperCString p = OFF_BYTES ∨ truncPayload p = [48])
    · simp [h1, h2]
    · simp [h1, h2]

theorem c6_amended_witness :
    ((0 : Nat) ∉ truncPayload [79, 110])
      ∧ ((decideCmd [79, 110] = some true
            ↔ (upperCString [79, 110] = ON_BYTES ∨ truncPayload [79, 110] = [49]))
          ∧ (decideCmd [79, 110] = some false
            ↔ (¬(upperCString [79, 110] = ON_BYTES ∨ truncPayload [79, 110] = [49])
                ∧ (upperCString [79, 110] = OFF_BYTES ∨ truncPayload [79, 110] = [48])))) :=
  ⟨by decide, c6_amended_payload_matching.1 [79, 110] (by decide)⟩

/-! ### C8: reconnect publish sequence -/

set_option maxRecDepth 4000 in
theorem haPayload_lt (deviceId : String) (hdev : deviceId.length = 8) :
    ∀ i : Fin NUM_ZONES, (haPayload i deviceId).length < MQTT_PAYLOAD_BUFFER_SIZE := by
  intro i
  fin_cases i <;>
    simp [haPayload, zoneName, ZONE_NAMES, zoneCommandTopic, zoneStateTopic, MQTT_STATUS,
      MQTT_TOPIC_PREFIX, String.length_append, hdev, MQTT_PAYLOAD_BUFFER_SIZE] <;>
    decide

theorem foldr_guard_eq_map {α β : Type} (l : List α) (P : α → Prop) [DecidablePred P]
    (f : α → β) (h : ∀ a ∈ l, P a) :
    l.foldr (fun a acc => if P a then f a :: acc else acc) [] = l.map f := by
  induction l with
  | nil => rfl
  | cons hd tl ih =>
    simp only [List.foldr_cons, List.map_cons]
    rw [if_pos (h hd (List.mem_cons_self hd tl)),
      ih (fun a ha => h a (List.mem_cons_of_mem hd ha))]

theorem haConfigTopic_ne_status :
    ∀ i : Fin NUM_ZONES, haConfigTopic (i.val + 1) ≠ MQTT_STATUS := by
  decide

/-- **C8.** On every successful connect, `reconnectMqtt` performs, in
order: the subscribe to the zone-command wildcard, exactly one retained
`online` availability publish, exactly `N` retained per-zone state
publishes (in zone order, reflecting the current outputs), then exactly
`N` retained per-zone discovery publishes (the 512-byte guard passes for
every zone whenever the device id has its 8-hex-digit form). -/
theorem c8_connect_publish_sequence (cfg : BrokerConfig) (deviceId : String)
    (pins : Fin NUM_ZONES → Bool) (hdev : deviceId.length = 8) :
    (reconnectEvents cfg deviceId pins true
        = Event.connectAttempt cfg.server (portOf cfg)
          :: Event.subscribe MQTT_ZONE_COMMAND
          :: Event.publish MQTT_STATUS "online" true
          :: (stateEvents pins ++ discoveryEvents deviceId))
      ∧ stateEvents pins
          = (List.finRange NUM_ZONES).map (fun i =>
              Event.publish (zoneStateTopic (i.val + 1))
                (if pins i then "ON" else "OFF") true)
      ∧ (stateEvents pins).length = NUM_ZONES
      ∧ discoveryEvents deviceId
          = (List.finRange NUM_ZONES).map (fun i =>
              Event.publish (haConfigTopic (i.val + 1)) (haPayload i deviceId) true)
      ∧ (discoveryEvents deviceId).length = NUM_ZONES
      ∧ (reconnectEvents cfg deviceId pins true).count
          (Event.publish MQTT_STATUS "online" true) = 1 := by
  have hdisc : discoveryEvents deviceId
      = (List.finRange NUM_ZONES).map (fun i =>
          Event.publish (haConfigTopic (i.val + 1)) (haPayload i deviceId) true) := by
    unfold discoveryEvents
    exact foldr_guard_eq_map (List.finRange NUM_ZONES)
      (fun i => (haPayload i deviceId).length < MQTT_PAYLOAD_BUFFER_SIZE)
      (fun i => Event.publish (haConfigTopic (i.val + 1)) (haPayload i deviceId) true)
      (fun i _ => haPayload_lt deviceId hdev i)
  refine ⟨rfl, rfl, ?_, hdisc, ?_, ?_⟩
  · rw [stateEvents, List.length_map, List.length_finRange]
  · rw [hdisc, List.length_map, List.length_finRange]
  · rw [show reconnectEvents cfg deviceId pins true
        = Event.connectAttempt cfg.server (portOf cfg)
          :: Event.subscribe MQTT_ZONE_COMMAND
          :: Event.publish MQTT_STATUS "online" true
          :: (stateEvents pins ++ discoveryEvents deviceId) from rfl]
    rw [List.count_cons, List.count_cons, List.count_cons, List.count_append]
    have hst : (stateEvents pins).count (Event.publish MQTT_STATUS "online" true) = 0 := by
      rw [List.count_eq_zero]
      intro hm
      rw [stateEvents, List.mem_map] at hm
      obtain ⟨i, _, hi⟩ := hm
      rw [Event.publish.injEq] at hi
      exact statusTopic_ne_zoneStateTopic i hi.1.symm
    have hdc : (discoveryEvents deviceId).count
        (Event.publish MQTT_STATUS "online" true) = 0 := by
      rw [List.count_eq_zero]
      intro hm
      rw [hdisc, List.mem_map] at hm
      obtain ⟨i, _, hi⟩ := hm
      rw [Event.publish.injEq] at hi
      exact haConfigTopic_ne_status i hi.1
    rw [hst, hdc]
    simp

theorem c8_witness :
    (("AABBCCDD" : String).length = 8)
      ∧ (reconnectEvents cfgW "AABBCCDD" (fun _ => false) true
          = Event.connectAttempt cfgW.server (portOf cfgW)
            :: Event.subscribe MQTT_ZONE_COMMAND
            :: Event.publish MQTT_STATUS "online" true
            :: (stateEvents (fun _ => false) ++ discoveryEvents "AABBCCDD"))
      ∧ (discoveryEvents "AABBCCDD").length = NUM_ZONES :=
  ⟨by decide,
   (c8_connect_publish_sequence cfgW "AABBCCDD" (fun _ => false) (by decide)).1,
   (c8_connect_publish_sequence cfgW "AABBCCDD" (fun _ => false) (by decide)).2.2.2.2.1⟩

/-! ### C9: configuration validation -/

/-- **C9 counterexample.** With an empty broker address the connection
attempt is still made (using the validated port), not aborted:
`reconnectMqtt` never inspects `mqtt_server` before calling
`mqtt.connect`. -/
theorem c9_cex_empty_server_still_attempts :
    (reconnectEvents { server := "", port := "1883".toList, user := "", password := "" }
        "AABBCCDD" (fun _ => false) false).head?
      = some (Event.connectAttempt "" 1883) := by
  decide

/-- **C9 amended.** `reconnectMqtt` validates only the port before the
attempt: an empty port string or an `atoi` value outside `[1, 65535]`
falls back to 1883, an in-range value is used as-is, and the connect
attempt is always made — also with an empty broker address.  Address
emptiness is instead checked when the configuration is loaded:
`loadConfig` clears `mqtt_server` whenever the loaded record is invalid
(in particular whenever the address is empty), forcing reconfiguration. -/
theorem c9_amended_port_fallback_attempt_always (cfg : BrokerConfig) :
    (cfg.port = [] → portOf cfg = 1883)
      ∧ ((atoiList cfg.port ≤ 0 ∨ 65535 < atoiList cfg.port) → portOf cfg = 1883)
      ∧ (cfg.port ≠ [] → 0 < atoiList cfg.port → atoiList cfg.port ≤ 65535 →
          portOf cfg = atoiList cfg.port)
      ∧ (∀ (dev : String) (pins : Fin NUM_ZONES → Bool) (ok : Bool),
          (reconnectEvents cfg dev pins ok).head?
            = some (Event.connectAttempt cfg.server (portOf cfg)))
      ∧ (∀ (server : String) (port : List Char),
          configValid server port = false → loadConfigServer server port = "")
      ∧ (∀ port : List Char, configValid "" port = false) := by
  refine ⟨?_, ?_, ?_, ?_, ?_, ?_⟩
  · intro h
    simp [portOf, h]
  · intro h
    by_cases hp : cfg.port = []
    · simp [portOf, hp]
    · simp only [portOf, hp, ne_eq, not_false_eq_true, if_true]
      rw [if_pos h]
  · intro hp h1 h2
    simp only [portOf, hp, ne_eq, not_false_eq_true, if_true]
    rw [if_neg (by omega)]
  · intro dev pins ok
    rfl
  · intro server port h
    simp [loadConfigServer, h]
  · intro port
    unfold configValid
    simp

def cfgBadPort : BrokerConfig :=
  { server := "b", port := ['9', '9', '9', '9', '9'], user := "", password := "" }

theorem c9_amended_witness :
    portOf cfgBadPort = 1883
      ∧ loadConfigServer "" ("1883".toList) = "" :=
  ⟨(c9_amended_port_fallback_attempt_always _).2.1 (by decide),
   (c9_amended_port_fallback_attempt_always cfgW).2.2.2.2.1 "" ("1883".toList)
     (by decide)⟩

end Sprinkler
